import Mathlib

/-!
Verification of the job-application tracker (client `ProfileView` component and
the CRUD/filter contract of the backend and container component).

The client component (`ProfileView`) is embedded directly from its source.
The filter engine, the date-normalization function `getDateValue`, and the
backend store operations live in container/controller files not present in the
repository snapshot; those are modelled from the specification and marked as
such in their doc comments.
-/

/-- Client-side job record as held by `ProfileView`: fields `_id`, `Position`,
`Company`, `Phase`, `CL`, `Status`, `Note`, `Applied date` (the last written
`AppliedDate` here since Lean identifiers cannot contain spaces). -/
structure Job where
  jid : String
  Position : String
  Company : String
  Phase : String
  CL : Bool
  Status : Bool
  Note : String
  AppliedDate : String
deriving DecidableEq, Repr

/-- The draft new-job form state (`newJob` in `ProfileView`): same shape as
`Job` minus the id. -/
structure DraftRecord where
  Position : String
  Company : String
  Phase : String
  CL : Bool
  Status : Bool
  Note : String
  AppliedDate : String
deriving DecidableEq, Repr

/-- The validation-error object built by `handleAddJobWithValidation`
(`ProfileView`, lines 74-85): an association list from field name to message,
holding a key exactly for each empty required field.  In the JS source
`!newJob.Position` is true precisely when the string field is empty. -/
def validationErrors (d : DraftRecord) : List (String × String) :=
  (if d.Position = "" then [("Position", "Position is required")] else []) ++
  (if d.Company = "" then [("Company", "Company is required")] else []) ++
  (if d.AppliedDate = "" then [("Applied date", "Applied Date is required")] else [])

/-- The submit handler `handleAddJobWithValidation`: computes the error object
from the current draft, replaces the whole `addError` state with it
(`setAddError(errors)`), and calls `handleAddJob` iff the error object has no
keys.  Returns the new error map and whether `handleAddJob` was called. -/
def handleAddJobWithValidation (d : DraftRecord) : List (String × String) × Bool :=
  let errors := validationErrors d
  (errors, errors.isEmpty)

/-- The field-edit handler `handleNewJobChange` (`ProfileView`, lines 64-69):
on an edit of the field named `name` the previous error map is kept except that
the entry for `name` is set to the empty string
(`setAddError(prev => ({ ...prev, [name]: '' }))`).  The error state is
modelled as a total map from field name to message, the empty string standing
for "no message" exactly as in the source (`helperText={addError.Position}`). -/
def handleNewJobChange (name : String) (prev : String → String) : String → String :=
  fun k => if k = name then "" else prev k

/-- State of the delete-confirmation dialog in `ProfileView`
(`useState({ open: false, job: null })`). -/
structure DialogState where
  isOpen : Bool
  job : Option Job
deriving DecidableEq, Repr

/-- Initial dialog state: closed, no pending job. -/
def initialDialog : DialogState := ⟨false, none⟩

/-- `openDeleteDialog(job)` (`ProfileView`, lines 99-101). -/
def openDeleteDialog (j : Job) : DialogState := ⟨true, some j⟩

/-- `closeDeleteDialog()` (`ProfileView`, lines 106-108). -/
def closeDeleteDialog : DialogState := ⟨false, none⟩

/-- `confirmDelete()` (`ProfileView`, lines 113-118): if a job is pending,
`handleDeleteJob(job._id)` is issued, then the dialog closes.  Returns the new
dialog state and the id passed to `handleDeleteJob`, if any. -/
def confirmDelete (s : DialogState) : DialogState × Option String :=
  match s.job with
  | some j => (closeDeleteDialog, some j.jid)
  | none => (closeDeleteDialog, none)

/-- User events that touch the delete dialog: clicking the per-row delete icon
(`openDeleteDialog(job)`), pressing Delete in the dialog (`confirmDelete`), and
pressing Cancel or closing the dialog (`closeDeleteDialog`). -/
inductive DialogEvent where
  | clickDelete (j : Job)
  | confirm
  | cancel
deriving DecidableEq, Repr

/-- One step of the dialog state machine; the second component is the id
passed to `handleDeleteJob` during this step, if any. -/
def dialogStep (s : DialogState) : DialogEvent → DialogState × Option String
  | .clickDelete j => (openDeleteDialog j, none)
  | .confirm => confirmDelete s
  | .cancel => (closeDeleteDialog, none)

/-- Run a sequence of dialog events, collecting every id passed to
`handleDeleteJob`. -/
def runDialog (s : DialogState) : List DialogEvent → DialogState × List String
  | [] => (s, [])
  | e :: es =>
    let p := dialogStep s e
    let q := runDialog p.1 es
    (q.1, p.2.toList ++ q.2)

lemma dialogStep_state_job (s : DialogState) (e : DialogEvent) (j : Job)
    (h : (dialogStep s e).1.job = some j) : e = .clickDelete j := by
  cases e with
  | clickDelete j0 =>
    simp [dialogStep, openDeleteDialog] at h
    simp [h]
  | confirm =>
    exfalso
    cases hj : s.job with
    | none => simp [dialogStep, confirmDelete, hj, closeDeleteDialog] at h
    | some j1 => simp [dialogStep, confirmDelete, hj, closeDeleteDialog] at h
  | cancel =>
    exfalso
    simp [dialogStep, closeDeleteDialog] at h

lemma dialogStep_emit (s : DialogState) (e : DialogEvent) (x : String)
    (h : (dialogStep s e).2 = some x) :
    e = .confirm ∧ ∃ j : Job, s.job = some j ∧ j.jid = x := by
  cases e with
  | clickDelete j0 => simp [dialogStep] at h
  | confirm =>
    refine ⟨rfl, ?_⟩
    cases hj : s.job with
    | none => simp [dialogStep, confirmDelete, hj] at h
    | some j1 =>
      simp [dialogStep, confirmDelete, hj] at h
      exact ⟨j1, rfl, h⟩
  | cancel => simp [dialogStep] at h

lemma runDialog_emit (es : List DialogEvent) (s : DialogState) (x : String)
    (h : x ∈ (runDialog s es).2) :
    (∃ j : Job, j.jid = x ∧ s.job = some j) ∨
    (∃ j : Job, j.jid = x ∧ DialogEvent.clickDelete j ∈ es) := by
  induction es generalizing s with
  | nil => simp [runDialog] at h
  | cons e es ih =>
    simp only [runDialog, List.mem_append] at h
    cases h with
    | inl hx =>
      cases hemit : (dialogStep s e).2 with
      | none => simp [hemit] at hx
      | some y =>
        simp [hemit] at hx
        subst hx
        obtain ⟨-, j, hj, hjid⟩ := dialogStep_emit s e x hemit
        exact Or.inl ⟨j, hjid, hj⟩
    | inr hx =>
      cases ih (dialogStep s e).1 hx with
      | inl hcur =>
        obtain ⟨j, hjid, hj⟩ := hcur
        have := dialogStep_state_job s e j hj
        exact Or.inr ⟨j, hjid, by simp [this]⟩
      | inr hpast =>
        obtain ⟨j, hjid, hj⟩ := hpast
        exact Or.inr ⟨j, hjid, by simp [hj]⟩

/-- Modelled from the spec: the date-normalization function `getDateValue`
(defined in the container component `Profile.js`, which is not part of the
repository snapshot; `ProfileView` receives it as a prop).  Per the spec it
converts any accepted date representation (ISO string such as
`2024-01-01T00:00:00.000Z`, empty, or already-normalized `YYYY-MM-DD`) into
the `YYYY-MM-DD` display form, returning the empty string on empty input
rather than failing.  Taking the first ten characters of a non-empty ISO
date string yields its `YYYY-MM-DD` prefix. -/
def getDateValue (s : String) : String :=
  if s = "" then "" else ⟨s.data.take 10⟩

/-- Lower-casing used for case-insensitive text matching
(JS `toLowerCase()`). -/
def toLowerStr (s : String) : String := ⟨s.data.map Char.toLower⟩

/-- Boolean test that `n` occurs as a prefix of `h` (character lists). -/
def isPrefixL : List Char → List Char → Bool
  | [], _ => true
  | _ :: _, [] => false
  | a :: as, b :: bs => a == b && isPrefixL as bs

/-- Boolean test that `n` occurs as a contiguous substring of the second
list (JS `String.prototype.includes`). -/
def containsSub (n : List Char) : List Char → Bool
  | [] => isPrefixL n []
  | b :: bs => isPrefixL n (b :: bs) || containsSub n bs

/-- Modelled from the spec: match rule for the text fields `Position`,
`Company`, `Phase`, `Note` — empty filter value excludes the field, otherwise
case-insensitive substring containment. -/
def textMatches (fv rv : String) : Bool :=
  fv == "" || containsSub (toLowerStr fv).data (toLowerStr rv).data

/-- Modelled from the spec: interpretation of a non-empty boolean filter value
as a boolean.  The `CL` filter select offers the values `"true"`/`"false"` and
the `Status` filter select offers `"active"`/`"inactive"`
(`ProfileView`, lines 191-218). -/
def parseBoolFilter (v : String) : Bool := v == "true" || v == "active"

/-- Modelled from the spec: match rule for the boolean fields `CL` and
`Status` — empty filter value excludes the field, otherwise exact equality
after interpreting the filter value as a boolean. -/
def boolMatches (fv : String) (rb : Bool) : Bool :=
  fv == "" || parseBoolFilter fv == rb

/-- Modelled from the spec: match rule for `Applied date` — empty filter value
excludes the field, otherwise exact string equality on the normalized
`YYYY-MM-DD` form (the filter value itself comes from a `type="date"` input
and is already in that form). -/
def dateMatches (fv rv : String) : Bool :=
  fv == "" || getDateValue rv == fv

/-- The transient client-local filter state (`filters` in `ProfileView`): one
string per filterable field, empty string meaning "no constraint".  `CL` and
`Status` hold the raw select values (`""`/`"true"`/`"false"` and
`""`/`"active"`/`"inactive"` respectively). -/
structure FilterSet where
  Position : String
  Company : String
  Phase : String
  CL : String
  Status : String
  Note : String
  AppliedDate : String
deriving DecidableEq, Repr

/-- The `FilterSet` with every field empty. -/
def emptyFilterSet : FilterSet := ⟨"", "", "", "", "", "", ""⟩

/-- Modelled from the spec: a record passes the filter iff every field with a
non-empty filter value satisfies its match rule. -/
def matchesFilters (f : FilterSet) (r : Job) : Bool :=
  textMatches f.Position r.Position &&
  textMatches f.Company r.Company &&
  textMatches f.Phase r.Phase &&
  boolMatches f.CL r.CL &&
  boolMatches f.Status r.Status &&
  textMatches f.Note r.Note &&
  dateMatches f.AppliedDate r.AppliedDate

/-- Modelled from the spec: the filter engine, producing the filtered view of
the in-memory record list (`filteredJobs`).  Pure and order-preserving by
construction as a `List.filter`. -/
def filterJobs (f : FilterSet) (l : List Job) : List Job :=
  l.filter (matchesFilters f)

/-- Backend job record as persisted by the store: `id` assigned at creation,
`ownerId` the authenticated owner. -/
structure JobRecord where
  id : String
  ownerId : String
  Position : String
  Company : String
  Phase : String
  CL : Bool
  Status : Bool
  Note : String
  AppliedDate : String
deriving DecidableEq, Repr

/-- Error taxonomy of the CRUD API layer. -/
inductive ApiError where
  | ValidationError (fields : List String)
  | NotFoundError
deriving DecidableEq, Repr

/-- Predicate selecting the record with the given `id` owned by `ownerId`. -/
def ownedBy (ownerId id : String) (r : JobRecord) : Bool :=
  r.id == id && r.ownerId == ownerId

/-- Lookup of the record with the given `id` owned by `ownerId`. -/
def findOwned (store : List JobRecord) (ownerId id : String) : Option JobRecord :=
  store.find? (ownedBy ownerId id)

/-- A partial field map as sent by an Update request: `none` means the field
is not present in the request. -/
structure PartialFields where
  Position : Option String
  Company : Option String
  Phase : Option String
  CL : Option Bool
  Status : Option Bool
  Note : Option String
  AppliedDate : Option String
deriving DecidableEq, Repr

/-- Modelled from the spec: merge of the supplied partial fields into an
existing record — a supplied field replaces the old value, an absent field is
left unchanged, and `id`/`ownerId` are never touched. -/
def mergeFields (p : PartialFields) (r : JobRecord) : JobRecord :=
  { r with
    Position := p.Position.getD r.Position
    Company := p.Company.getD r.Company
    Phase := p.Phase.getD r.Phase
    CL := p.CL.getD r.CL
    Status := p.Status.getD r.Status
    Note := p.Note.getD r.Note
    AppliedDate := p.AppliedDate.getD r.AppliedDate }

/-- Modelled from the spec: `Update(ownerId, id, partialFields)` — fails with
`NotFoundError` (store unchanged) when no record with `id` owned by `ownerId`
exists, otherwise merges the supplied fields into that record, persists, and
returns the updated record.  Returns the resulting store together with the
result. -/
def updateJob (store : List JobRecord) (ownerId id : String) (p : PartialFields) :
    List JobRecord × Except ApiError JobRecord :=
  match findOwned store ownerId id with
  | none => (store, .error .NotFoundError)
  | some r =>
    let merged := mergeFields p r
    (store.map (fun x => if ownedBy ownerId id x then merged else x), .ok merged)

/-- Modelled from the spec: `Delete(ownerId, id)` — fails with `NotFoundError`
(store unchanged) under the same condition as Update, otherwise removes the
record.  Returns the resulting store together with the result. -/
def deleteJob (store : List JobRecord) (ownerId id : String) :
    List JobRecord × Except ApiError Unit :=
  match findOwned store ownerId id with
  | none => (store, .error .NotFoundError)
  | some _ => (store.filter (fun x => !(ownedBy ownerId id x)), .ok ())

/-- The error state written by a submission.  In `ProfileView` the submit
handler replaces the whole `addError` map via `setAddError(errors)` (line 80);
the previous map does not influence the result. -/
def submitAddForm (prevErrors : List (String × String)) (d : DraftRecord) :
    List (String × String) × Bool :=
  let _ := prevErrors
  handleAddJobWithValidation d

/-- Sample client job used to instantiate hypotheses of the proved theorems. -/
def sampleJob : Job := ⟨"j1", "SWE", "Acme", "Interview", false, true, "note", "2024-01-01"⟩

/-- Sample persisted record used to instantiate hypotheses of the proved
theorems. -/
def sampleRecord : JobRecord := ⟨"r1", "u1", "SWE", "Acme", "", false, true, "", "2024-01-01"⟩

/-- The empty partial-field map (an Update request carrying no fields). -/
def emptyPartial : PartialFields := ⟨none, none, none, none, none, none, none⟩

/-- A partial-field map carrying only `Status := false`. -/
def statusPartial : PartialFields := ⟨none, none, none, none, some false, none, none⟩

/-- Sample prior error map (as a total map) with a message on `Company`. -/
def samplePrevErrors : String → String :=
  fun k => if k = "Company" then "Company is required" else ""

/-- Sample valid draft (all required fields non-empty). -/
def sampleDraft : DraftRecord := ⟨"SWE", "Acme", "", false, true, "", "2024-01-01"⟩

/-- Sample prior error map (as an association list) with a stale `Position`
message. -/
def samplePrevList : List (String × String) := [("Position", "Position is required")]

/-- C1: on add-new submission, `handleAddJob` is called iff `Position`,
`Company` and `Applied date` are all non-empty in the draft, and the produced
error map names exactly the empty required fields. -/
theorem c1_add_validation_gate (d : DraftRecord) :
    ((handleAddJobWithValidation d).2 = true ↔
      d.Position ≠ "" ∧ d.Company ≠ "" ∧ d.AppliedDate ≠ "") ∧
    (∀ k : String,
      k ∈ (handleAddJobWithValidation d).1.map Prod.fst ↔
        ((k = "Position" ∧ d.Position = "") ∨
         (k = "Company" ∧ d.Company = "") ∨
         (k = "Applied date" ∧ d.AppliedDate = ""))) := by
  by_cases hp : d.Position = "" <;>
  by_cases hc : d.Company = "" <;>
  by_cases ha : d.AppliedDate = "" <;>
    simp [handleAddJobWithValidation, validationErrors, hp, hc, ha]

/-- C8: editing a field of the add form clears exactly that field's validation
error (`handleNewJobChange` sets the edited field's entry to the empty string
and leaves every other entry unchanged). -/
theorem c8_edit_clears_field_error (name : String) (prev : String → String) :
    handleNewJobChange name prev name = "" ∧
    ∀ k : String, k ≠ name → handleNewJobChange name prev k = prev k := by
  refine ⟨by simp [handleNewJobChange], fun k hk => by simp [handleNewJobChange, hk]⟩

/-- Witness for C8 at a concrete field name and prior error map. -/
theorem c8_edit_clears_field_error_witness :
    handleNewJobChange "Position" samplePrevErrors "Position" = "" ∧
    handleNewJobChange "Position" samplePrevErrors "Company" = "Company is required" :=
  ⟨(c8_edit_clears_field_error "Position" samplePrevErrors).1, by
    have h := (c8_edit_clears_field_error "Position" samplePrevErrors).2 "Company" (by decide)
    rw [h]; decide⟩

/-- C9: a submission replaces the entire error map with the errors computed
from the current draft, independently of the prior map; in particular a field
that is now non-empty has no entry in the new map. -/
theorem c9_submit_replaces_error_map (prev : List (String × String)) (d : DraftRecord) :
    (submitAddForm prev d).1 = validationErrors d ∧
    (d.Position ≠ "" → (submitAddForm prev d).1.lookup "Position" = none) ∧
    (d.Company ≠ "" → (submitAddForm prev d).1.lookup "Company" = none) ∧
    (d.AppliedDate ≠ "" → (submitAddForm prev d).1.lookup "Applied date" = none) := by
  refine ⟨rfl, ?_, ?_, ?_⟩ <;> intro h <;>
    by_cases hp : d.Position = "" <;>
    by_cases hc : d.Company = "" <;>
    by_cases ha : d.AppliedDate = "" <;>
      simp_all [submitAddForm, handleAddJobWithValidation, validationErrors, List.lookup]

/-- Witness for C9: resubmitting a now-valid draft removes the stale
`Position` error without the user editing that field. -/
theorem c9_submit_replaces_error_map_witness :
    (submitAddForm samplePrevList sampleDraft).1 = validationErrors sampleDraft ∧
    (submitAddForm samplePrevList sampleDraft).1.lookup "Position" = none :=
  ⟨(c9_submit_replaces_error_map samplePrevList sampleDraft).1,
   (c9_submit_replaces_error_map samplePrevList sampleDraft).2.1 (by decide)⟩

/-- C3: the delete handler is never invoked from a single click (the per-row
click only opens the dialog), cancel/close never invokes it, and every id ever
passed to `handleDeleteJob` in a run from the initial state belongs to a job
for which the dialog was opened by an earlier click. -/
theorem c3_delete_needs_confirmation :
    (∀ (s : DialogState) (j : Job), (dialogStep s (.clickDelete j)).2 = none) ∧
    (∀ s : DialogState, (dialogStep s .cancel).2 = none) ∧
    (∀ (es : List DialogEvent) (x : String),
      x ∈ (runDialog initialDialog es).2 →
      ∃ j : Job, j.jid = x ∧ DialogEvent.clickDelete j ∈ es) := by
  refine ⟨fun s j => rfl, fun s => rfl, fun es x hx => ?_⟩
  rcases runDialog_emit es initialDialog x hx with ⟨j, hjid, hj⟩ | h
  · simp [initialDialog] at hj
  · exact h

/-- Witness for C3 on the concrete trace click-then-confirm. -/
theorem c3_delete_needs_confirmation_witness :
    "j1" ∈ (runDialog initialDialog
      [DialogEvent.clickDelete sampleJob, DialogEvent.confirm]).2 ∧
    ∃ j : Job, j.jid = "j1" ∧
      DialogEvent.clickDelete j ∈ [DialogEvent.clickDelete sampleJob, DialogEvent.confirm] := by
  have hmem : "j1" ∈ (runDialog initialDialog
      [DialogEvent.clickDelete sampleJob, DialogEvent.confirm]).2 := by decide
  exact ⟨hmem, c3_delete_needs_confirmation.2.2
    [DialogEvent.clickDelete sampleJob, DialogEvent.confirm] "j1" hmem⟩

/-- C10: confirming with no pending job closes the dialog without calling the
delete handler, and after every confirm or cancel the dialog state is closed
with no pending job. -/
theorem c10_confirm_without_pending_job :
    (∀ b : Bool, confirmDelete ⟨b, none⟩ = (⟨false, none⟩, none)) ∧
    (∀ s : DialogState, (dialogStep s .confirm).1 = ⟨false, none⟩) ∧
    (∀ s : DialogState, (dialogStep s .cancel).1 = ⟨false, none⟩) := by
  refine ⟨fun b => rfl, fun s => ?_, fun s => rfl⟩
  cases s with
  | mk b jo => cases jo <;> rfl

/-- C2: a record passes the filter iff every filter field with a non-empty
value satisfies its match rule — case-insensitive substring containment for
the text fields, boolean equality after interpreting the filter value for
`CL`/`Status`, and exact equality on the normalized date; an empty filter
value excludes the field from matching. -/
theorem c2_filter_match_rule (f : FilterSet) (r : Job) :
    matchesFilters f r = true ↔
      ((f.Position ≠ "" →
        containsSub (toLowerStr f.Position).data (toLowerStr r.Position).data = true) ∧
       (f.Company ≠ "" →
        containsSub (toLowerStr f.Company).data (toLowerStr r.Company).data = true) ∧
       (f.Phase ≠ "" →
        containsSub (toLowerStr f.Phase).data (toLowerStr r.Phase).data = true) ∧
       (f.CL ≠ "" → parseBoolFilter f.CL = r.CL) ∧
       (f.Status ≠ "" → parseBoolFilter f.Status = r.Status) ∧
       (f.Note ≠ "" →
        containsSub (toLowerStr f.Note).data (toLowerStr r.Note).data = true) ∧
       (f.AppliedDate ≠ "" → getDateValue r.AppliedDate = f.AppliedDate)) := by
  simp only [matchesFilters, textMatches, boolMatches, dateMatches,
    Bool.and_eq_true, Bool.or_eq_true, beq_iff_eq, or_iff_not_imp_left, and_assoc]

/-- C6: the filter engine with an all-empty `FilterSet` returns the input list
unchanged; the engine is idempotent and its output is always a sublist of its
input (order-preserving); as a plain function it is pure. -/
theorem c6_filter_engine_algebra :
    (∀ l : List Job, filterJobs emptyFilterSet l = l) ∧
    (∀ (f : FilterSet) (l : List Job), filterJobs f (filterJobs f l) = filterJobs f l) ∧
    (∀ (f : FilterSet) (l : List Job), (filterJobs f l).Sublist l) := by
  refine ⟨fun l => ?_, fun f l => ?_, fun f l => List.filter_sublist l⟩
  · apply List.filter_eq_self.mpr
    intro r _
    simp [matchesFilters, textMatches, boolMatches, dateMatches, emptyFilterSet]
  · apply List.filter_eq_self.mpr
    intro r hr
    exact List.of_mem_filter hr

/-- C7: `getDateValue` is idempotent on every string input and maps the empty
string to the empty string. -/
theorem c7_getDateValue_idempotent :
    (∀ s : String, getDateValue (getDateValue s) = getDateValue s) ∧
    getDateValue "" = "" := by
  refine ⟨fun s => ?_, rfl⟩
  by_cases h : s = ""
  · subst h; rfl
  · have hd : s.data ≠ [] := by
      intro hl
      apply h
      cases s with
      | mk l => simp at hl; subst hl; rfl
    have h10 : (⟨s.data.take 10⟩ : String) ≠ "" := by
      intro he
      have hdata : s.data.take 10 = [] := congrArg String.data he
      cases hdat : s.data with
      | nil => exact hd hdat
      | cons c cs => rw [hdat] at hdata; simp at hdata
    simp only [getDateValue, if_neg h, if_neg h10]
    have : ((⟨s.data.take 10⟩ : String).data).take 10 = s.data.take 10 := by
      show (s.data.take 10).take 10 = s.data.take 10
      rw [List.take_take]; norm_num
    rw [this]

/-- C4: Update and Delete on an id that does not exist in the store, or that
is owned by a different user, fail with `NotFoundError` and leave the store
unchanged. -/
theorem c4_update_delete_not_found (store : List JobRecord) (ownerId id : String)
    (p : PartialFields)
    (h : ∀ r ∈ store, ¬(r.id = id ∧ r.ownerId = ownerId)) :
    updateJob store ownerId id p = (store, .error .NotFoundError) ∧
    deleteJob store ownerId id = (store, .error .NotFoundError) := by
  have hfind : findOwned store ownerId id = none := by
    apply List.find?_eq_none.mpr
    intro r hr
    simpa only [ownedBy, Bool.and_eq_true, beq_iff_eq] using h r hr
  exact ⟨by simp [updateJob, hfind], by simp [deleteJob, hfind]⟩

/-- Witness for C4: the store holds a record with the requested id but a
different owner; both operations fail and return the store unchanged. -/
theorem c4_update_delete_not_found_witness :
    updateJob [sampleRecord] "u2" "r1" emptyPartial
      = ([sampleRecord], .error .NotFoundError) ∧
    deleteJob [sampleRecord] "u2" "r1" = ([sampleRecord], .error .NotFoundError) :=
  ⟨(c4_update_delete_not_found [sampleRecord] "u2" "r1" emptyPartial (by decide)).1,
   (c4_update_delete_not_found [sampleRecord] "u2" "r1" emptyPartial (by decide)).2⟩

/-- C5: a successful Update returns the merge of exactly the supplied fields
into the existing record; absent fields, `id` and `ownerId` are unchanged and
each supplied field takes the supplied value. -/
theorem c5_update_merges_supplied_fields (store : List JobRecord)
    (ownerId id : String) (p : PartialFields) (r : JobRecord)
    (h : findOwned store ownerId id = some r) :
    (updateJob store ownerId id p).2 = .ok (mergeFields p r) ∧
    (mergeFields p r).id = r.id ∧
    (mergeFields p r).ownerId = r.ownerId ∧
    (p.Position = none → (mergeFields p r).Position = r.Position) ∧
    (∀ v, p.Position = some v → (mergeFields p r).Position = v) ∧
    (p.Company = none → (mergeFields p r).Company = r.Company) ∧
    (∀ v, p.Company = some v → (mergeFields p r).Company = v) ∧
    (p.Phase = none → (mergeFields p r).Phase = r.Phase) ∧
    (∀ v, p.Phase = some v → (mergeFields p r).Phase = v) ∧
    (p.CL = none → (mergeFields p r).CL = r.CL) ∧
    (∀ v, p.CL = some v → (mergeFields p r).CL = v) ∧
    (p.Status = none → (mergeFields p r).Status = r.Status) ∧
    (∀ v, p.Status = some v → (mergeFields p r).Status = v) ∧
    (p.Note = none → (mergeFields p r).Note = r.Note) ∧
    (∀ v, p.Note = some v → (mergeFields p r).Note = v) ∧
    (p.AppliedDate = none → (mergeFields p r).AppliedDate = r.AppliedDate) ∧
    (∀ v, p.AppliedDate = some v → (mergeFields p r).AppliedDate = v) := by
  refine ⟨by simp [updateJob, h], rfl, rfl,
    ?_, ?_, ?_, ?_, ?_, ?_, ?_, ?_, ?_, ?_, ?_, ?_, ?_, ?_⟩ <;>
  · intros
    simp_all [mergeFields]

/-- Witness for C5: updating the sample record with `{Status := false}` keeps
every other field and sets `Status` to `false`. -/
theorem c5_update_merges_supplied_fields_witness :
    (updateJob [sampleRecord] "u1" "r1" statusPartial).2
      = .ok (mergeFields statusPartial sampleRecord) ∧
    (mergeFields statusPartial sampleRecord).Status = false ∧
    (mergeFields statusPartial sampleRecord).Position = sampleRecord.Position :=
  ⟨(c5_update_merges_supplied_fields [sampleRecord] "u1" "r1" statusPartial
      sampleRecord (by decide)).1,
   (c5_update_merges_supplied_fields [sampleRecord] "u1" "r1" statusPartial
      sampleRecord (by decide)).2.2.2.2.2.2.2.2.2.2.2.2.1 false rfl,
   (c5_update_merges_supplied_fields [sampleRecord] "u1" "r1" statusPartial
      sampleRecord (by decide)).2.2.2.1 rfl⟩
